import Mathlib

/-!
Shallow embedding of `casschecker.py`, a minimal client for the Cassandra
binary wire protocol.  Bytes are modelled as `Nat` (values `< 256` in
context), byte strings as `List Nat`, Python `int` as `Int`, and fallible
operations (`struct.pack` range errors, `enum` lookups, UTF-8 codecs,
socket I/O) as `Option`.
-/

namespace Cass

/-- Python `struct.pack('!B', v)`: one unsigned byte; raises unless `0 ≤ v ≤ 255`. -/
def packB (v : Int) : Option (List Nat) :=
  if 0 ≤ v ∧ v ≤ 255 then some [v.toNat] else none

/-- Python `struct.pack('!h', v)`: big-endian signed 16-bit; raises unless
`-32768 ≤ v ≤ 32767`; two's complement on the wire. -/
def packH (v : Int) : Option (List Nat) :=
  if -32768 ≤ v ∧ v ≤ 32767 then
    some [((v % 65536).toNat) / 256, ((v % 65536).toNat) % 256]
  else none

/-- Python `struct.pack('!i', v)`: big-endian signed 32-bit; raises unless
`-2^31 ≤ v ≤ 2^31 - 1`; two's complement on the wire. -/
def packI (v : Int) : Option (List Nat) :=
  if -2147483648 ≤ v ∧ v ≤ 2147483647 then
    some [((v % 4294967296).toNat) / 16777216 % 256,
          ((v % 4294967296).toNat) / 65536 % 256,
          ((v % 4294967296).toNat) / 256 % 256,
          ((v % 4294967296).toNat) % 256]
  else none

/-- Big-endian signed 16-bit read (`struct.unpack('!h', ...)` on two bytes). -/
def signed16 (u : Nat) : Int :=
  if u < 32768 then (u : Int) else (u : Int) - 65536

/-- Big-endian signed 32-bit read (`struct.unpack('!i', ...)` on four bytes). -/
def signed32 (u : Nat) : Int :=
  if u < 2147483648 then (u : Int) else (u : Int) - 4294967296

/-- Python `struct.unpack('!i', data)`: requires exactly 4 bytes. -/
def unpack_i (data : List Nat) : Option Int :=
  match data with
  | [a, b, c, d] => some (signed32 (a * 16777216 + b * 65536 + c * 256 + d))
  | _ => none

/-- The `OpCode` enumeration of `casschecker.py`. -/
inductive OpCode where
  | Startup
  | Register
  | Error
  | Ready
  | Result
  | Query
deriving DecidableEq, Repr

/-- The numeric value of each `OpCode` member. -/
def OpCode.value : OpCode → Nat
  | .Startup => 0x01
  | .Register => 0x0b
  | .Error => 0x00
  | .Ready => 0x02
  | .Result => 0x08
  | .Query => 0x07

/-- Python `OpCode(v)`: enum lookup by value, raising `ValueError` (here `none`)
when `v` is not a member value. -/
def OpCode.ofNat? (v : Nat) : Option OpCode :=
  if v = 0x01 then some .Startup
  else if v = 0x0b then some .Register
  else if v = 0x00 then some .Error
  else if v = 0x02 then some .Ready
  else if v = 0x08 then some .Result
  else if v = 0x07 then some .Query
  else none

/-- The `Consistency` enumeration (only `One` is used by the client). -/
inductive Consistency where
  | Any | One | Two | Three | Quorun | All
  | LocalQuorum | EachQuorum | Serial | LocalSerial | LocalOne
deriving DecidableEq, Repr

/-- The numeric value of each `Consistency` member. -/
def Consistency.value : Consistency → Int
  | .Any => 0x0000
  | .One => 0x0001
  | .Two => 0x0002
  | .Three => 0x0003
  | .Quorun => 0x0004
  | .All => 0x0005
  | .LocalQuorum => 0x0006
  | .EachQuorum => 0x0007
  | .Serial => 0x0008
  | .LocalSerial => 0x0009
  | .LocalOne => 0x000A

/-- The `Payload` class: fields set by `Payload.__init__`.  `length` is the
field `self.__length`; the constructor `mkPayload` below is the only way the
program creates one. -/
structure Payload where
  version : Int
  flags : Int
  stream : Int
  opcode : OpCode
  body : List Nat
  length : Int
deriving DecidableEq, Repr

/-- `Payload.__init__(version, flags, stream, opcode, body)`: stores the five
arguments and sets `self.__length = len(body)`. -/
def mkPayload (version flags stream : Int) (opcode : OpCode) (body : List Nat) : Payload :=
  { version := version, flags := flags, stream := stream, opcode := opcode,
    body := body, length := (body.length : Int) }

/-- `struct.pack(_HEADER_FORMAT, version, flags, stream, opcode, length)` with
`_HEADER_FORMAT = '!BBhBi'`. -/
def headerPack (version flags stream opcode length : Int) : Option (List Nat) :=
  (packB version).bind fun b0 =>
  (packB flags).bind fun b1 =>
  (packH stream).bind fun b2 =>
  (packB opcode).bind fun b3 =>
  (packI length).map fun b4 => b0 ++ b1 ++ b2 ++ b3 ++ b4

/-- `Payload.__bytes__`: the packed 9-byte header followed by the body. -/
def payloadBytes (p : Payload) : Option (List Nat) :=
  (headerPack p.version p.flags p.stream (p.opcode.value : Int) p.length).map
    (· ++ p.body)

/-- `Request.__init__(opcode, body)`: builds a `Payload` with version `0x04`,
flags `0x00` and the current value of the class-level stream counter, then
increments the counter.  The counter is threaded explicitly as state. -/
def mkRequest (opcode : OpCode) (body : List Nat) (ctr : Nat) : Payload × Nat :=
  (mkPayload 0x04 0x00 (ctr : Int) opcode body, ctr + 1)

/-- UTF-8 encoding of one Unicode scalar value (Python `str.encode('utf-8')`,
per character). -/
def utf8EncodeChar (c : Char) : List Nat :=
  let n := c.toNat
  if n < 0x80 then [n]
  else if n < 0x800 then [0xC0 + n / 64, 0x80 + n % 64]
  else if n < 0x10000 then [0xE0 + n / 4096, 0x80 + n / 64 % 64, 0x80 + n % 64]
  else [0xF0 + n / 262144, 0x80 + n / 4096 % 64, 0x80 + n / 64 % 64, 0x80 + n % 64]

/-- `s.encode('utf-8')` as a byte list. -/
def strBytes (s : String) : List Nat :=
  s.data.flatMap utf8EncodeChar

/-- `len(s.encode('utf-8'))`. -/
def utf8Len (s : String) : Nat :=
  (strBytes s).length

/-- One step of UTF-8 decoding: reads a single scalar value from the front of
the byte list (Python `bytes.decode('utf-8')`, per scalar): rejects bad lead
or continuation bytes, overlong forms, surrogates, and values above
`0x10FFFF`.  Returns the scalar value and the remaining bytes. -/
def utf8DecodeOne : List Nat → Option (Nat × List Nat)
  | [] => none
  | b :: bs =>
    if b < 0x80 then some (b, bs)
    else if b < 0xE0 then
      match bs with
      | b1 :: bs1 =>
        if 0xC0 ≤ b ∧ 0x80 ≤ b1 ∧ b1 < 0xC0 ∧ 0x80 ≤ (b - 0xC0) * 64 + (b1 - 0x80) then
          some ((b - 0xC0) * 64 + (b1 - 0x80), bs1)
        else none
      | [] => none
    else if b < 0xF0 then
      match bs with
      | b1 :: b2 :: bs2 =>
        if (0x80 ≤ b1 ∧ b1 < 0xC0) ∧ (0x80 ≤ b2 ∧ b2 < 0xC0) ∧
            (0x800 ≤ (b - 0xE0) * 4096 + (b1 - 0x80) * 64 + (b2 - 0x80) ∧
             ¬(0xD800 ≤ (b - 0xE0) * 4096 + (b1 - 0x80) * 64 + (b2 - 0x80) ∧
               (b - 0xE0) * 4096 + (b1 - 0x80) * 64 + (b2 - 0x80) < 0xE000)) then
          some ((b - 0xE0) * 4096 + (b1 - 0x80) * 64 + (b2 - 0x80), bs2)
        else none
      | _ => none
    else if b < 0xF8 then
      match bs with
      | b1 :: b2 :: b3 :: bs3 =>
        if (0x80 ≤ b1 ∧ b1 < 0xC0) ∧ (0x80 ≤ b2 ∧ b2 < 0xC0) ∧ (0x80 ≤ b3 ∧ b3 < 0xC0) ∧
            (0x10000 ≤ (b - 0xF0) * 262144 + (b1 - 0x80) * 4096 + (b2 - 0x80) * 64 + (b3 - 0x80) ∧
             (b - 0xF0) * 262144 + (b1 - 0x80) * 4096 + (b2 - 0x80) * 64 + (b3 - 0x80) < 0x110000) then
          some ((b - 0xF0) * 262144 + (b1 - 0x80) * 4096 + (b2 - 0x80) * 64 + (b3 - 0x80), bs3)
        else none
      | _ => none
    else none

/-- UTF-8 decoding of a whole byte list, iterating `utf8DecodeOne`.  The `Nat`
argument is structural-recursion fuel only: each step consumes at least one
byte, so fuel `bs.length` (as supplied by `utf8DecodeChars`) never runs out. -/
def utf8DecodeLoop : Nat → List Nat → Option (List Char)
  | _, [] => some []
  | 0, _ :: _ => none
  | fuel + 1, b :: bs =>
    (utf8DecodeOne (b :: bs)).bind fun p =>
      (utf8DecodeLoop fuel p.2).map fun cs => Char.ofNat p.1 :: cs

/-- UTF-8 decoding of a byte list to a scalar-value sequence
(Python `bytes.decode('utf-8')`). -/
def utf8DecodeChars (bs : List Nat) : Option (List Char) :=
  utf8DecodeLoop bs.length bs

/-- `bytes.decode(encoding='utf-8')` producing a `String`. -/
def utf8DecodeStr (bs : List Nat) : Option String :=
  (utf8DecodeChars bs).map fun cs => String.mk cs

/-- `byte_to_bytes(data)`: `struct.pack('!B', data)`. -/
def byte_to_bytes (data : Int) : Option (List Nat) :=
  packB data

/-- `short_to_bytes(data)`: `struct.pack('!h', data)`. -/
def short_to_bytes (data : Int) : Option (List Nat) :=
  packH data

/-- `int_to_bytes(data)`: `struct.pack('!i', data)`. -/
def int_to_bytes (data : Int) : Option (List Nat) :=
  packI data

/-- `shortstr_to_bytes(data)`: UTF-8 encode, then `short_to_bytes(len(data))`
followed by the encoded bytes. -/
def shortstr_to_bytes (data : String) : Option (List Nat) :=
  (short_to_bytes ((strBytes data).length : Int)).map (· ++ strBytes data)

/-- `longstr_to_bytes(data)`: UTF-8 encode, then `int_to_bytes(len(data))`
followed by the encoded bytes. -/
def longstr_to_bytes (data : String) : Option (List Nat) :=
  (int_to_bytes ((strBytes data).length : Int)).map (· ++ strBytes data)

/-- `consistency_to_bytes(data)`: `short_to_bytes(data.value)`. -/
def consistency_to_bytes (data : Consistency) : Option (List Nat) :=
  short_to_bytes data.value

/-- The `b''.join(...)` comprehension inside `strstrmap_to_bytes`:
`shortstr_to_bytes(k) + shortstr_to_bytes(v)` for each entry. -/
def strstrmapEntries : List (String × String) → Option (List Nat)
  | [] => some []
  | (k, v) :: rest =>
    (shortstr_to_bytes k).bind fun kb =>
    (shortstr_to_bytes v).bind fun vb =>
    (strstrmapEntries rest).map fun tail => kb ++ vb ++ tail

/-- `strstrmap_to_bytes(data)`: `short_to_bytes(len(data))` followed by the
joined per-entry encodings, in iteration order. -/
def strstrmap_to_bytes (data : List (String × String)) : Option (List Nat) :=
  (short_to_bytes (data.length : Int)).bind fun pre =>
  (strstrmapEntries data).map fun entries => pre ++ entries

/-- `struct.unpack(_HEADER_FORMAT, header)`: requires exactly 9 bytes; yields
`(version, flags, stream, opcode, length)` with `stream` and `length` signed. -/
def unpackHeader (hdr : List Nat) : Option (Nat × Nat × Int × Nat × Int) :=
  match hdr with
  | [v, f, s1, s2, op, l1, l2, l3, l4] =>
    some (v, f, signed16 (s1 * 256 + s2), op,
      signed32 (l1 * 16777216 + l2 * 65536 + l3 * 256 + l4))
  | _ => none

/-- Lines 134-135 of `send_request`: unpack the header, then `OpCode(opecode)`
which fails on a value outside the enumeration. -/
def decodeHeader (hdr : List Nat) : Option (Nat × Nat × Int × OpCode × Int) :=
  (unpackHeader hdr).bind fun (v, f, s, op, len) =>
  (OpCode.ofNat? op).map fun oc => (v, f, s, oc, len)

/-- `sock.recv(n)` on a blocking socket: the OS delivers some initial segment
of the pending byte stream, of size at most `n`; the chunk size actually
delivered is environment-chosen and is passed in as `k`.  Returns the
delivered bytes and the rest of the stream. -/
def recvModel (avail : List Nat) (n : Nat) (k : Nat) : List Nat × List Nat :=
  let t := min (min n k) avail.length
  (avail.take t, avail.drop t)

/-- `send_request(sock, payload)` with the socket modelled by its pending
incoming byte stream `incoming` and the OS-chosen delivery sizes `k1` (for
`sock.recv(9)`) and `k2` (for `sock.recv(length)`).  `sock.send` transmits
(its return value, the count of bytes actually written, is ignored by the
code); `recv` returns whatever segment the OS delivers, without looping. -/
def send_request (incoming : List Nat) (k1 k2 : Nat) (payload : Payload) :
    Option Payload :=
  (payloadBytes payload).bind fun _ =>
  let (header, rest) := recvModel incoming 9 k1
  (decodeHeader header).bind fun (version, flags, stream, opecode, length) =>
  if 0 ≤ length then
    let (body, _) := recvModel rest length.toNat k2
    some (mkPayload (version : Int) (flags : Int) stream opecode body)
  else none

/-- A sequence of `Request` constructions: threads the class-level stream
counter through `mkRequest` for each `(opcode, body)` pair in order. -/
def buildRequests : List (OpCode × List Nat) → Nat → List Payload × Nat
  | [], ctr => ([], ctr)
  | (op, b) :: rest, ctr =>
    let (p, ctr1) := mkRequest op b ctr
    let (ps, ctr2) := buildRequests rest ctr1
    (p :: ps, ctr2)

/-- `Response.__str__` error branch (lines 91-94): for an `Error` response it
reads `struct.unpack('!i', self.body[:4])[0]` and
`self.body[6:].decode(encoding='utf-8')`.  Returns the extracted
`(code, message)` pair, `none` for a non-`Error` opcode or when extraction
raises. -/
def responseErrorInfo (r : Payload) : Option (Int × String) :=
  if r.opcode = OpCode.Error then
    (unpack_i (r.body.take 4)).bind fun code =>
    (utf8DecodeStr (r.body.drop 6)).map fun msg => (code, msg)
  else none

/-- Modelled from the spec: the repository contains no short-string decoder
(only the encoder `shortstr_to_bytes`); per the spec's words, decoding reads
the 2-byte big-endian length, then that many bytes, then UTF-8 decodes
them. -/
def decodeShortString (bs : List Nat) : Option String :=
  match bs with
  | b0 :: b1 :: rest =>
    if b0 * 256 + b1 ≤ rest.length then utf8DecodeStr (rest.take (b0 * 256 + b1))
    else none
  | _ => none

/-- The startup request built by `main` (first `Request` of the session, so
stream id 0): opcode `Startup` with the string-map body
`{'CQL_VERSION': '3.0.0'}`, serialized by `Payload.__bytes__`. -/
def startupRequestBytes : Option (List Nat) :=
  (strstrmap_to_bytes [("CQL_VERSION", "3.0.0")]).bind fun body =>
    payloadBytes (mkRequest OpCode.Startup body 0).1

/-- A 40000-character ASCII string, exhibiting the gap between the `0xFFFF`
bound claimed for the short-string encoder and the `0x7FFF` bound the code
enforces. -/
def bigA : String := String.mk (List.replicate 40000 'a')

end Cass

/-!
Helper lemmas shared by the claim theorems below.
-/

namespace Cass

theorem char_ofNat_toNat (c : Char) : Char.ofNat c.toNat = c := by
  have h : c.toNat.isValidChar := c.valid
  apply Char.eq_of_val_eq
  rw [Char.ofNat, dif_pos h]
  apply UInt32.eq_of_toBitVec_eq
  apply BitVec.eq_of_toNat_eq
  simp [Char.ofNatAux, Char.toNat, UInt32.toNat]

theorem utf8EncodeChar_length_pos (c : Char) : 1 ≤ (utf8EncodeChar c).length := by
  rw [utf8EncodeChar]
  split_ifs <;> simp

theorem utf8DecodeOne_encodeChar (c : Char) (rest : List Nat) :
    utf8DecodeOne (utf8EncodeChar c ++ rest) = some (c.toNat, rest) := by
  have hv : c.toNat < 0xd800 ∨ (0xdfff < c.toNat ∧ c.toNat < 0x110000) := c.valid
  rcases Nat.lt_or_ge c.toNat 0x80 with h1 | h1
  · have he : utf8EncodeChar c = [c.toNat] := by
      rw [utf8EncodeChar]; simp only [if_pos h1]
    rw [he, List.cons_append, List.nil_append, utf8DecodeOne.eq_def]
    simp only [if_pos h1]
  · have hn1 : ¬ c.toNat < 0x80 := by omega
    rcases Nat.lt_or_ge c.toNat 0x800 with h2 | h2
    · have he : utf8EncodeChar c = [0xC0 + c.toNat / 64, 0x80 + c.toNat % 64] := by
        rw [utf8EncodeChar]; simp only [if_neg hn1, if_pos h2]
      have d1 : ¬ 0xC0 + c.toNat / 64 < 0x80 := by omega
      have d2 : 0xC0 + c.toNat / 64 < 0xE0 := by omega
      rw [he, List.cons_append, List.cons_append, List.nil_append, utf8DecodeOne.eq_def]
      simp only [if_neg d1, if_pos d2]
      rw [if_pos (by refine ⟨by omega, by omega, by omega, by omega⟩)]
      have e : (0xC0 + c.toNat / 64 - 0xC0) * 64 + (0x80 + c.toNat % 64 - 0x80) = c.toNat := by
        omega
      rw [e]
    · have hn2 : ¬ c.toNat < 0x800 := by omega
      rcases Nat.lt_or_ge c.toNat 0x10000 with h3 | h3
      · have he : utf8EncodeChar c =
            [0xE0 + c.toNat / 4096, 0x80 + c.toNat / 64 % 64, 0x80 + c.toNat % 64] := by
          rw [utf8EncodeChar]; simp only [if_neg hn1, if_neg hn2, if_pos h3]
        have d1 : ¬ 0xE0 + c.toNat / 4096 < 0x80 := by omega
        have d2 : ¬ 0xE0 + c.toNat / 4096 < 0xE0 := by omega
        have d3 : 0xE0 + c.toNat / 4096 < 0xF0 := by omega
        rw [he, List.cons_append, List.cons_append, List.cons_append, List.nil_append,
          utf8DecodeOne.eq_def]
        simp only [if_neg d1, if_neg d2, if_pos d3]
        rw [if_pos (by refine ⟨⟨by omega, by omega⟩, ⟨by omega, by omega⟩, by omega, by omega⟩)]
        have e : (0xE0 + c.toNat / 4096 - 0xE0) * 4096 + (0x80 + c.toNat / 64 % 64 - 0x80) * 64 +
            (0x80 + c.toNat % 64 - 0x80) = c.toNat := by omega
        rw [e]
      · have hn3 : ¬ c.toNat < 0x10000 := by omega
        have he : utf8EncodeChar c =
            [0xF0 + c.toNat / 262144, 0x80 + c.toNat / 4096 % 64, 0x80 + c.toNat / 64 % 64,
              0x80 + c.toNat % 64] := by
          rw [utf8EncodeChar]; simp only [if_neg hn1, if_neg hn2, if_neg hn3]
        have d1 : ¬ 0xF0 + c.toNat / 262144 < 0x80 := by omega
        have d2 : ¬ 0xF0 + c.toNat / 262144 < 0xE0 := by omega
        have d3 : ¬ 0xF0 + c.toNat / 262144 < 0xF0 := by omega
        have d4 : 0xF0 + c.toNat / 262144 < 0xF8 := by omega
        rw [he, List.cons_append, List.cons_append, List.cons_append, List.cons_append,
          List.nil_append, utf8DecodeOne.eq_def]
        simp only [if_neg d1, if_neg d2, if_neg d3, if_pos d4]
        rw [if_pos (by
          refine ⟨⟨by omega, by omega⟩, ⟨by omega, by omega⟩, ⟨by omega, by omega⟩, by omega,
            by omega⟩)]
        have e : (0xF0 + c.toNat / 262144 - 0xF0) * 262144 +
            (0x80 + c.toNat / 4096 % 64 - 0x80) * 4096 +
            (0x80 + c.toNat / 64 % 64 - 0x80) * 64 + (0x80 + c.toNat % 64 - 0x80) = c.toNat := by
          omega
        rw [e]

theorem utf8DecodeLoop_flatMap (cs : List Char) (fuel : Nat)
    (hf : (cs.flatMap utf8EncodeChar).length ≤ fuel) :
    utf8DecodeLoop fuel (cs.flatMap utf8EncodeChar) = some cs := by
  induction cs generalizing fuel with
  | nil => cases fuel <;> rfl
  | cons c cs ih =>
    rw [List.flatMap_cons]
    rw [List.flatMap_cons, List.length_append] at hf
    have hec := utf8EncodeChar_length_pos c
    obtain ⟨e0, etail, henc⟩ : ∃ e0 etail, utf8EncodeChar c = e0 :: etail := by
      cases hc : utf8EncodeChar c with
      | nil => rw [hc] at hec; simp at hec
      | cons x xs => exact ⟨x, xs, rfl⟩
    cases fuel with
    | zero => exfalso; omega
    | succ f =>
      rw [henc, List.cons_append, utf8DecodeLoop]
      rw [show e0 :: (etail ++ cs.flatMap utf8EncodeChar) =
        utf8EncodeChar c ++ cs.flatMap utf8EncodeChar by rw [henc, List.cons_append]]
      rw [utf8DecodeOne_encodeChar]
      simp [ih f (by rw [henc] at hf; simp only [List.length_cons] at hf; omega),
        char_ofNat_toNat]

theorem utf8DecodeChars_strBytes (s : String) :
    utf8DecodeChars (strBytes s) = some s.data := by
  rw [strBytes, utf8DecodeChars]
  exact utf8DecodeLoop_flatMap s.data _ le_rfl

theorem utf8DecodeStr_strBytes (s : String) :
    utf8DecodeStr (strBytes s) = some s := by
  rw [utf8DecodeStr, utf8DecodeChars_strBytes]
  rfl

end Cass

namespace Cass

theorem flatMap_replicate_a (n : Nat) :
    (List.replicate n 'a').flatMap utf8EncodeChar = List.replicate n 97 := by
  induction n with
  | zero => rfl
  | succ k ih =>
    rw [List.replicate_succ, List.flatMap_cons, ih,
      show utf8EncodeChar 'a' = [97] from by decide,
      List.cons_append, List.nil_append, List.replicate_succ]

theorem strBytes_bigA : strBytes bigA = List.replicate 40000 97 := by
  rw [bigA, strBytes]
  exact flatMap_replicate_a 40000

theorem shortstr_to_bytes_of_le (s : String) (h : (strBytes s).length ≤ 32767) :
    shortstr_to_bytes s =
      some ([(strBytes s).length / 256, (strBytes s).length % 256] ++ strBytes s) := by
  rw [shortstr_to_bytes, short_to_bytes, packH, if_pos (by constructor <;> omega)]
  have e : ((((strBytes s).length : Int)) % 65536).toNat = (strBytes s).length := by omega
  rw [Option.map_some', e]

theorem shortstr_to_bytes_none_of_gt (s : String) (h : 32767 < (strBytes s).length) :
    shortstr_to_bytes s = none := by
  rw [shortstr_to_bytes, short_to_bytes, packH, if_neg (by omega)]
  rfl

theorem packB_length (v : Int) (l : List Nat) (h : packB v = some l) : l.length = 1 := by
  rw [packB] at h
  split_ifs at h
  obtain rfl := Option.some.inj h
  rfl

theorem packH_length (v : Int) (l : List Nat) (h : packH v = some l) : l.length = 2 := by
  rw [packH] at h
  split_ifs at h
  obtain rfl := Option.some.inj h
  rfl

theorem packI_length (v : Int) (l : List Nat) (h : packI v = some l) : l.length = 4 := by
  rw [packI] at h
  split_ifs at h
  obtain rfl := Option.some.inj h
  rfl

theorem headerPack_length (v f s op l : Int) (out : List Nat)
    (hh : headerPack v f s op l = some out) : out.length = 9 := by
  rw [headerPack] at hh
  obtain ⟨b0, hb0, hh⟩ := Option.bind_eq_some.mp hh
  obtain ⟨b1, hb1, hh⟩ := Option.bind_eq_some.mp hh
  obtain ⟨b2, hb2, hh⟩ := Option.bind_eq_some.mp hh
  obtain ⟨b3, hb3, hh⟩ := Option.bind_eq_some.mp hh
  obtain ⟨b4, hb4, rfl⟩ := Option.map_eq_some'.mp hh
  have l0 := packB_length _ _ hb0
  have l1 := packB_length _ _ hb1
  have l2 := packH_length _ _ hb2
  have l3 := packB_length _ _ hb3
  have l4 := packI_length _ _ hb4
  simp [List.length_append, l0, l1, l2, l3, l4]

theorem responseErrorInfo_split (v f st : Int) (b4 : List Nat) (h4 : b4.length = 4)
    (p1 p2 : Nat) (rest : List Nat) :
    responseErrorInfo (mkPayload v f st OpCode.Error (b4 ++ p1 :: p2 :: rest)) =
      (unpack_i b4).bind fun code => (utf8DecodeStr rest).map fun msg => (code, msg) := by
  rcases b4 with _ | ⟨a, _ | ⟨b, _ | ⟨c, _ | ⟨d, _ | _⟩⟩⟩⟩ <;>
    simp only [List.length_cons, List.length_nil] at h4 <;> try omega
  rfl

theorem unpack_i_int_to_bytes (code : Int) (cb : List Nat)
    (hcb : int_to_bytes code = some cb) : unpack_i cb = some code := by
  rw [int_to_bytes, packI] at hcb
  split_ifs at hcb with hr
  obtain rfl := Option.some.inj hcb
  rw [unpack_i]
  congr 1
  rw [signed32]
  split_ifs with hs <;> omega

theorem buildRequests_fields (specs : List (OpCode × List Nat)) (c : Nat) :
    ((buildRequests specs c).1.map Payload.stream) =
      (List.range' c specs.length).map Int.ofNat ∧
    ∀ p ∈ (buildRequests specs c).1, p.version = 0x04 ∧ p.flags = 0x00 := by
  induction specs generalizing c with
  | nil => exact ⟨rfl, by intro p hp; simp [buildRequests] at hp⟩
  | cons hd tl ih =>
    obtain ⟨op, b⟩ := hd
    constructor
    · rw [show (buildRequests ((op, b) :: tl) c).1 =
        mkPayload 0x04 0x00 (c : Int) op b :: (buildRequests tl (c + 1)).1 from rfl]
      simp only [List.length_cons]
      rw [List.map_cons, List.range'_succ, List.map_cons]
      rw [(ih (c + 1)).1]
      rfl
    · intro p hp
      rw [show (buildRequests ((op, b) :: tl) c).1 =
        mkPayload 0x04 0x00 (c : Int) op b :: (buildRequests tl (c + 1)).1 from rfl] at hp
      rcases List.mem_cons.mp hp with rfl | hp
      · exact ⟨rfl, rfl⟩
      · exact (ih (c + 1)).2 p hp

end Cass

namespace Cass

/-- C1: for every `Payload`, the `length` field equals `len(body)`, and
`Payload.__bytes__` is the header packed with `len(body)` as the length field
(never a caller-supplied length), a 9-byte header followed by the body. -/
theorem payload_length_invariant (v f s : Int) (op : OpCode) (b : List Nat) :
    (mkPayload v f s op b).length = (b.length : Int) ∧
    payloadBytes (mkPayload v f s op b) =
      (headerPack v f s (op.value : Int) (b.length : Int)).map (· ++ b) ∧
    ∀ out, payloadBytes (mkPayload v f s op b) = some out →
      ∃ hdr, hdr.length = 9 ∧ out = hdr ++ b := by
  refine ⟨rfl, rfl, fun out hout => ?_⟩
  rw [payloadBytes] at hout
  obtain ⟨hdr, hhdr, rfl⟩ := Option.map_eq_some'.mp hout
  exact ⟨hdr, headerPack_length _ _ _ _ _ hdr hhdr, rfl⟩

/-- Witness for C1 at a concrete payload. -/
theorem payload_length_invariant_witness :
    ∃ hdr, hdr.length = 9 ∧
      [4, 0, 0, 0, 1, 0, 0, 0, 3] ++ [7, 8, 9] = hdr ++ [7, 8, 9] :=
  (payload_length_invariant 4 0 0 OpCode.Startup [7, 8, 9]).2.2
    ([4, 0, 0, 0, 1, 0, 0, 0, 3] ++ [7, 8, 9]) (by decide)

/-- C2 counterexample: the startup request does NOT serialize to the spec's
claimed byte sequence (whose header declares body length `0x1D` = 29). -/
theorem startup_bytes_ne_spec :
    startupRequestBytes ≠
      some [0x04, 0x00, 0x00, 0x00, 0x01, 0x00, 0x00, 0x00, 0x1D,
            0x00, 0x01, 0x00, 0x0B, 0x43, 0x51, 0x4C, 0x5F, 0x56, 0x45, 0x52, 0x53,
            0x49, 0x4F, 0x4E, 0x00, 0x05, 0x33, 0x2E, 0x30, 0x2E, 0x30] := by
  decide

/-- C2 (amended): the startup request serializes to the header
`04 00 00 00 01 00 00 00 16` (body length `0x16` = 22) followed by the
string-map body bytes. -/
theorem startup_bytes :
    startupRequestBytes =
      some [0x04, 0x00, 0x00, 0x00, 0x01, 0x00, 0x00, 0x00, 0x16,
            0x00, 0x01, 0x00, 0x0B, 0x43, 0x51, 0x4C, 0x5F, 0x56, 0x45, 0x52, 0x53,
            0x49, 0x4F, 0x4E, 0x00, 0x05, 0x33, 0x2E, 0x30, 0x2E, 0x30] := by
  decide

/-- C5: a sequence of N `Request` constructions from the initial counter gets
stream ids `0, 1, …, N-1` in construction order, each unique, and every
request has version `0x04` and flags `0x00`. -/
theorem request_stream_ids (specs : List (OpCode × List Nat)) :
    ((buildRequests specs 0).1.map Payload.stream) =
      (List.range specs.length).map Int.ofNat ∧
    ((buildRequests specs 0).1.map Payload.stream).Nodup ∧
    ∀ p ∈ (buildRequests specs 0).1, p.version = 0x04 ∧ p.flags = 0x00 := by
  obtain ⟨h1, h2⟩ := buildRequests_fields specs 0
  refine ⟨by rw [h1, List.range_eq_range'], ?_, h2⟩
  rw [h1]
  exact List.Nodup.map (fun a b hab => Int.ofNat.inj hab) (List.nodup_range' 0 specs.length)

/-- Witness for C5 at a concrete two-request session. -/
theorem request_stream_ids_witness :
    ((buildRequests [(OpCode.Startup, []), (OpCode.Query, [0])] 0).1.map Payload.stream) =
      [0, 1] ∧
    (mkPayload 4 0 0 OpCode.Startup []).version = 0x04 ∧
    (mkPayload 4 0 0 OpCode.Startup []).flags = 0x00 := by
  constructor
  · have h := (request_stream_ids [(OpCode.Startup, []), (OpCode.Query, [0])]).1
    simpa using h
  · exact (request_stream_ids [(OpCode.Startup, []), (OpCode.Query, [0])]).2.2
      (mkPayload 4 0 0 OpCode.Startup []) (by decide)

/-- C9: serializing any `Payload` whose stream id is outside the signed
16-bit range raises a packing error (`none`), and in particular the request
constructed after 32768 prior requests (stream id 32768) cannot be
serialized. -/
theorem stream_overflow_not_serializable :
    (∀ (v f s : Int) (op : OpCode) (b : List Nat), (s < -32768 ∨ 32767 < s) →
      payloadBytes (mkPayload v f s op b) = none) ∧
    (∀ (op : OpCode) (b : List Nat), payloadBytes (mkRequest op b 32768).1 = none) := by
  have key : ∀ (v f s : Int) (op : OpCode) (b : List Nat), (s < -32768 ∨ 32767 < s) →
      payloadBytes (mkPayload v f s op b) = none := by
    intro v f s op b hs
    have hH : packH s = none := by rw [packH, if_neg (by omega)]
    simp [payloadBytes, headerPack, mkPayload, hH]
  refine ⟨key, fun op b => ?_⟩
  exact key 4 0 ((32768 : Nat) : Int) op b (Or.inr (by omega))

/-- Witness for C9 at a concrete out-of-range stream id. -/
theorem stream_overflow_not_serializable_witness :
    payloadBytes (mkPayload 4 0 40000 OpCode.Query []) = none :=
  stream_overflow_not_serializable.1 4 0 40000 OpCode.Query [] (Or.inr (by decide))

end Cass

namespace Cass

/-- C3 counterexample: a string whose UTF-8 byte length is 40000 (at most
65535) is rejected by the short-string encoder, refuting the claimed 65535
bound. -/
theorem shortstr_claim_fails_at_40000 :
    utf8Len bigA ≤ 65535 ∧ shortstr_to_bytes bigA = none := by
  have hb : (strBytes bigA).length = 40000 := by rw [strBytes_bigA, List.length_replicate]
  constructor
  · rw [utf8Len]; omega
  · exact shortstr_to_bytes_none_of_gt bigA (by omega)

/-- C3 (amended): the short-string encoder fails if and only if the string's
UTF-8 byte length exceeds 32767 (the signed 16-bit bound enforced by
`struct.pack('!h', ...)`, not the unsigned 65535); for byte lengths at most
32767 it returns the 2-byte big-endian byte-count followed by the UTF-8
bytes, and the overflow case raises rather than truncating. -/
theorem shortstr_encoding (s : String) :
    (shortstr_to_bytes s = none ↔ 32767 < utf8Len s) ∧
    (utf8Len s ≤ 32767 →
      shortstr_to_bytes s = some ([utf8Len s / 256, utf8Len s % 256] ++ strBytes s)) := by
  rw [utf8Len]
  constructor
  · constructor
    · intro hnone
      by_contra hle
      rw [shortstr_to_bytes_of_le s (by omega)] at hnone
      exact Option.noConfusion hnone
    · intro hgt
      exact shortstr_to_bytes_none_of_gt s hgt
  · intro hle
    exact shortstr_to_bytes_of_le s hle

/-- Witness for C3 at a concrete short string. -/
theorem shortstr_encoding_witness :
    shortstr_to_bytes "abc" = some ([utf8Len "abc" / 256, utf8Len "abc" % 256] ++ strBytes "abc") :=
  (shortstr_encoding "abc").2 (by decide)

/-- C4 counterexample: for the 40000-byte string the claimed round-trip at
UTF-8 byte lengths up to 65535 fails, because the encoder itself fails. -/
theorem shortstr_roundtrip_fails_at_40000 :
    utf8Len bigA ≤ 65535 ∧ (shortstr_to_bytes bigA).bind decodeShortString ≠ some bigA := by
  have hb : (strBytes bigA).length = 40000 := by rw [strBytes_bigA, List.length_replicate]
  constructor
  · rw [utf8Len]; omega
  · rw [shortstr_to_bytes_none_of_gt bigA (by omega)]
    simp

/-- C4 (amended): for every string whose UTF-8 byte length is at most 32767,
decoding the short-string encoding (2-byte big-endian length, then that many
bytes, then UTF-8 decode) yields the string again. -/
theorem shortstr_roundtrip (s : String) (h : utf8Len s ≤ 32767) :
    (shortstr_to_bytes s).bind decodeShortString = some s := by
  rw [utf8Len] at h
  rw [shortstr_to_bytes_of_le s h, Option.some_bind, List.cons_append, List.cons_append,
    List.nil_append, decodeShortString]
  have e : (strBytes s).length / 256 * 256 + (strBytes s).length % 256 =
      (strBytes s).length := by omega
  rw [e, if_pos le_rfl, List.take_length]
  exact utf8DecodeStr_strBytes s

/-- Witness for C4 at a concrete string containing a multi-byte character. -/
theorem shortstr_roundtrip_witness :
    (shortstr_to_bytes "héllo").bind decodeShortString = some "héllo" :=
  shortstr_roundtrip "héllo" (by decide)

/-- C6: decoding a received 9-byte header fails exactly when the opcode byte
is outside the closed set {0x00, 0x01, 0x02, 0x07, 0x08, 0x0b}, and for each
member value it succeeds with the corresponding `OpCode` variant. -/
theorem unknown_opcode_rejected (v f s1 s2 op l1 l2 l3 l4 : Nat) :
    (decodeHeader [v, f, s1, s2, op, l1, l2, l3, l4] = none ↔
      op ≠ 0x00 ∧ op ≠ 0x01 ∧ op ≠ 0x02 ∧ op ≠ 0x07 ∧ op ≠ 0x08 ∧ op ≠ 0x0b) ∧
    ∀ oc : OpCode, decodeHeader [v, f, s1, s2, oc.value, l1, l2, l3, l4] =
      some (v, f, signed16 (s1 * 256 + s2), oc,
        signed32 (l1 * 16777216 + l2 * 65536 + l3 * 256 + l4)) := by
  constructor
  · rw [decodeHeader, unpackHeader, Option.some_bind, Option.map_eq_none']
    rw [OpCode.ofNat?]
    split_ifs <;> simp_all
  · intro oc
    cases oc <;> rfl

/-- Witness for C6: opcode byte 3 is rejected, opcode byte 2 maps to `Ready`. -/
theorem unknown_opcode_rejected_witness :
    decodeHeader [4, 0, 0, 0, 3, 0, 0, 0, 5] = none ∧
    decodeHeader [4, 0, 0, 0, 2, 0, 0, 0, 5] = some (4, 0, 0, OpCode.Ready, 5) := by
  constructor
  · exact (unknown_opcode_rejected 4 0 0 0 3 0 0 0 5).1.mpr (by decide)
  · have h := (unknown_opcode_rejected 4 0 0 0 2 0 0 0 5).2 OpCode.Ready
    simpa [OpCode.value, signed16, signed32] using h

/-- C7: evaluating `send_request` at a frame whose header declares a 12-byte
body while the single `recv` call delivers only 5 bytes: the code returns a
`Response` whose body has 5 bytes instead of raising a truncated-frame
error. -/
theorem send_request_short_read :
    send_request ([0x84, 0x00, 0x00, 0x00, 0x08, 0x00, 0x00, 0x00, 0x0C] ++
        [1, 2, 3, 4, 5, 6, 7, 8, 9, 10, 11, 12]) 9 5
        (mkRequest OpCode.Startup [] 0).1 =
      some (mkPayload 0x84 0x00 0 OpCode.Result [1, 2, 3, 4, 5]) ∧
    (mkPayload 0x84 0x00 0 OpCode.Result [1, 2, 3, 4, 5]).body.length = 5 := by
  constructor <;> decide

/-- C8: for an `Error` response whose body is a packed 32-bit code followed
by a 2-byte length and a UTF-8 message, the display extraction yields
exactly that code and message. -/
theorem error_response_display (v f st code : Int) (m : String) (p1 p2 : Nat)
    (cb : List Nat) (hcb : int_to_bytes code = some cb) :
    responseErrorInfo (mkPayload v f st OpCode.Error (cb ++ p1 :: p2 :: strBytes m)) =
      some (code, m) := by
  have h4 : cb.length = 4 := packI_length code cb hcb
  rw [responseErrorInfo_split v f st cb h4 p1 p2 (strBytes m)]
  rw [unpack_i_int_to_bytes code cb hcb, Option.some_bind, utf8DecodeStr_strBytes]
  rfl

/-- Witness for C8: the spec's scenario, error code `0x2200` with message
"Syntax error". -/
theorem error_response_display_witness :
    responseErrorInfo (mkPayload 4 0 0 OpCode.Error
        ([0x00, 0x00, 0x22, 0x00] ++ 0x00 :: 0x0C :: strBytes "Syntax error")) =
      some (0x2200, "Syntax error") :=
  error_response_display 4 0 0 0x2200 "Syntax error" 0x00 0x0C [0x00, 0x00, 0x22, 0x00]
    (by decide)

/-- C10: for an `Error` response the displayed message is the UTF-8 decoding
of the body from offset 6 onward: the code is read from the first 4 bytes,
the two bytes at offsets 4-5 are never read, so changing them never changes
the result. -/
theorem error_display_skips_bytes_4_5 (v f st : Int) (b4 : List Nat) (h4 : b4.length = 4)
    (p1 p2 q1 q2 : Nat) (rest : List Nat) :
    responseErrorInfo (mkPayload v f st OpCode.Error (b4 ++ p1 :: p2 :: rest)) =
      ((unpack_i b4).bind fun code => (utf8DecodeStr rest).map fun msg => (code, msg)) ∧
    responseErrorInfo (mkPayload v f st OpCode.Error (b4 ++ p1 :: p2 :: rest)) =
      responseErrorInfo (mkPayload v f st OpCode.Error (b4 ++ q1 :: q2 :: rest)) := by
  refine ⟨responseErrorInfo_split v f st b4 h4 p1 p2 rest, ?_⟩
  rw [responseErrorInfo_split v f st b4 h4 p1 p2 rest,
    responseErrorInfo_split v f st b4 h4 q1 q2 rest]

/-- Witness for C10: a length prefix inconsistent with the message (99, 99)
gives the same result as a consistent one. -/
theorem error_display_skips_bytes_4_5_witness :
    responseErrorInfo (mkPayload 4 0 0 OpCode.Error
        ([0, 0, 0x22, 0] ++ 99 :: 99 :: strBytes "hi")) =
      responseErrorInfo (mkPayload 4 0 0 OpCode.Error
        ([0, 0, 0x22, 0] ++ 0 :: 2 :: strBytes "hi")) :=
  (error_display_skips_bytes_4_5 4 0 0 [0, 0, 0x22, 0] (by decide) 99 99 0 2
    (strBytes "hi")).2

end Cass
